import Mathlib

set_option maxRecDepth 8192

/-!
Verification of the conversation-management contract of the recipe chatbot
backend (`backend/utils.py`).

The module under study owns a fixed system prompt, a model identifier
resolved from the environment, and a single operation `get_agent_response`
that normalises the conversation history (guaranteeing a leading system
message), delegates to an external completion provider, and returns the
history extended with the assistant reply.

The external provider (`litellm.completion`) is represented as a parameter
`completion_fn : List Message -> Except epsilon Completion`; a Python exception
raised by the provider is an `Except.error`, and the exception value is
propagated unmodified (wrapped in the `AgentError.providerError`
constructor that marks where the exception came from).  The `IndexError`
that Python raises on `completion["choices"][0]` when the choice list is
empty is the `AgentError.indexError` case.
-/

/-- A chat message: a record with a `role` and a `content` field, mirroring
the `Dict[str, str]` items of `backend/utils.py`. -/
structure Message where
  role : String
  content : String
deriving DecidableEq

/-- The system prompt constant of `backend/utils.py` (lines 20-72),
reproduced verbatim. -/
def SYSTEM_PROMPT : String :=
  ""
  ++ "\n"
  ++ "## Role\n"
  ++ "You are **ChefBot**, a helpful and creative recipe assistant.\n"
  ++ "\n"
  ++ "## Objective\n"
  ++ "Provide one delicious and practical recipe per request, ensuring clarity for non-native English speakers.\n"
  ++ "\n"
  ++ "## Instructions\n"
  ++ "- Provide the recipe in this Markdown structure:\n"
  ++ "  \n"
  ++ "  **Recipe name**: [name]  \n"
  ++ "  **Estimated time (min)**: [minutes]  \n"
  ++ "  **Ingredients**:  \n"
  ++ "  - item 1  \n"
  ++ "  - item 2  \n"
  ++ "  - …  \n"
  ++ "  **Steps**:  \n"
  ++ "  1. Step one  \n"
  ++ "  2. Step two  \n"
  ++ "  3. …\n"
  ++ "\n"
  ++ "- Always include quantities (and units) for ingredients.  \n"
  ++ "- Use clear, **numbered** steps with enough detail for beginners.  \n"
  ++ "- Include clear explanations for any cooking terms or techniques that might be unfamiliar to non-native speakers. For example:\n"
  ++ "  - Instead of \"knead the dough,\" write: \"Knead the dough (press and fold the dough with your hands until it becomes smooth and elastic).\"\n"
  ++ "- Use only basic/common pantry ingredients unless the user specifies otherwise.  \n"
  ++ "- Never include ingredients the user is allergic to or wants to avoid.  \n"
  ++ "- Ensure variety—don’t repeat the same recipe style back-to-back.  \n"
  ++ "- If the user asks for something **\"quick,\"** keep total time (prep + cook) under 30 minutes.  \n"
  ++ "  - If your chosen method exceeds 30 minutes, either suggest a faster alternative or ask for clarification.  \n"
  ++ "- If anything is ambiguous (diet, timing, equipment), ask a follow-up question before suggesting a recipe.  \n"
  ++ "  - e.g. \"You mentioned \x27quick\x27 = should I aim for ≤ 20 minutes instead of 30 minutes?\"\n"
  ++ "\n"
  ++ "## Failures to Avoid\n"
  ++ "- Assuming knowledge of cooking jargon\n"
  ++ "- Suggesting rare or unavailable ingredients without confirmation  \n"
  ++ "- Ignoring stated dietary restrictions  \n"
  ++ "- Providing instructions that are unclear, too complex, or too simple  \n"
  ++ "- Recommending unhealthy recipes when \"healthy\" is requested  \n"
  ++ "- Repeating the same recipe without variation\n"
  ++ "\n"
  ++ "## Tone and style\n"
  ++ "Use a simple, casual language e.g.:\n"
  ++ "- Use \"But\" instead of \"Hovewer\"\n"
  ++ "- Use \"too\" instaed of \"overly\"\n"
  ++ "\n"
  ++ "\x2d\x2d\x2d\n"
  ++ "\n"
  ++ "*Output **only** the recipe in the format above, unless you need to ask a clarification question.*\n"
  ++ ""

/-- `MODEL_NAME = os.environ.get("MODEL_NAME", "gpt-4o-mini")`
(`backend/utils.py` line 74): the process environment is modelled as a
partial map from variable names to values; `os.environ.get` falls back to
the default only when the variable is absent. -/
def MODEL_NAME (env : String → Option String) : String :=
  (env "MODEL_NAME").getD "gpt-4o-mini"

/-- One element of the `choices` array of a provider response. -/
structure Choice where
  message : Message
deriving DecidableEq

/-- The provider response object: `completion["choices"]` is a list of
choices. -/
structure Completion where
  choices : List Choice
deriving DecidableEq

/-- Failures observable from `get_agent_response`: an exception raised by
the provider call (propagated unmodified), or the `IndexError` raised by
`completion["choices"][0]` on an empty choice list. -/
inductive AgentError (ε : Type) where
  | providerError (e : ε)
  | indexError
deriving DecidableEq

/-- Embeds the Python subscript chain `messages[0]["role"]`:
`none` models the `IndexError` that indexing an empty list would raise. -/
def role_of_first (messages : List Message) : Option String :=
  (messages.get? 0).map Message.role

/-- Embeds the short-circuit condition
`not messages or messages[0]["role"] != "system"` (line 97): Python's `or`
evaluates the subscript only when `messages` is non-empty, so the result is
`none` (an uncaught `IndexError`) exactly when the subscript is evaluated
on an empty list, which never happens. -/
def normalization_check (messages : List Message) : Option Bool :=
  if messages = [] then some true
  else (role_of_first messages).map (fun r => decide (r ≠ "system"))

/-- The `current_messages` computation of `get_agent_response`
(lines 96-100): prepend the system prompt unless the history already starts
with a system message.  The spec calls this list `effective_history`. -/
def effective_history (messages : List Message) : List Message :=
  if messages = [] ∨ messages.head?.map Message.role ≠ some "system" then
    { role := "system", content := SYSTEM_PROMPT } :: messages
  else
    messages

/-- `get_agent_response` (`backend/utils.py` lines 77-114), with the
provider call abstracted as `completion_fn`. -/
def get_agent_response {ε : Type} (completion_fn : List Message → Except ε Completion)
    (messages : List Message) : Except (AgentError ε) (List Message) :=
  let current_messages : List Message := effective_history messages
  match completion_fn current_messages with
  | Except.error e => Except.error (AgentError.providerError e)
  | Except.ok completion =>
    match completion.choices.get? 0 with
    | none => Except.error AgentError.indexError
    | some choice =>
      let assistant_reply_content : String := choice.message.content.trim
      Except.ok (current_messages ++ [{ role := "assistant", content := assistant_reply_content }])


/-- Branch lemma: when the history is empty or does not start with a system
message, `effective_history` prepends the system prompt. -/
theorem effective_history_of_cond {h : List Message}
    (hc : h = [] ∨ h.head?.map Message.role ≠ some "system") :
    effective_history h = { role := "system", content := SYSTEM_PROMPT } :: h := by
  rw [effective_history, if_pos hc]

/-- Branch lemma: a history already led by a system message is passed
through `effective_history` unchanged. -/
theorem effective_history_of_not_cond {h : List Message}
    (hc : ¬(h = [] ∨ h.head?.map Message.role ≠ some "system")) :
    effective_history h = h := by
  rw [effective_history, if_neg hc]

/-- A history whose first message has role `"system"` falls in the
pass-through branch of the normalization condition. -/
theorem not_cond_of_head_system {m : Message} {t : List Message}
    (hr : m.role = "system") :
    ¬(m :: t = [] ∨ (m :: t).head?.map Message.role ≠ some "system") := by
  intro contra
  rcases contra with h1 | h2
  · exact List.noConfusion h1
  · exact h2 (by simp [hr])

/-- The effective history always starts with a system-role message. -/
theorem effective_history_head (h : List Message) :
    (effective_history h).head?.map Message.role = some "system" := by
  by_cases hc : h = [] ∨ h.head?.map Message.role ≠ some "system"
  · rw [effective_history_of_cond hc]
    rfl
  · rw [effective_history_of_not_cond hc]
    push_neg at hc
    exact hc.2

/-- C1: for every history `h`, if `h` is empty or the role of `h[0]` is not
`"system"`, then `get_agent_response` invokes the provider with
`[Message("system", SYSTEM_PROMPT)]` followed by all of `h` in order;
otherwise it invokes the provider with `h` unchanged.  The final conjunct
records that the provider is consulted exactly at `effective_history h`:
the result of `get_agent_response` depends on the provider only through its
value there. -/
theorem prompt_normalization_c1 (h : List Message) :
    ((h = [] ∨ h.head?.map Message.role ≠ some "system") →
      effective_history h = { role := "system", content := SYSTEM_PROMPT } :: h)
    ∧ ((h ≠ [] ∧ h.head?.map Message.role = some "system") →
      effective_history h = h)
    ∧ ∀ (ε : Type) (p q : List Message → Except ε Completion),
        p (effective_history h) = q (effective_history h) →
        get_agent_response p h = get_agent_response q h := by
  refine ⟨fun hc => effective_history_of_cond hc, fun hc => ?_, fun ε p q hpq => ?_⟩
  · refine effective_history_of_not_cond ?_
    intro contra
    rcases contra with h1 | h2
    · exact hc.1 h1
    · exact h2 hc.2
  · simp only [get_agent_response, hpq]

/-- Witness for C1: the empty history gets the system prompt prepended, a
history already led by a system message is passed unchanged, and two
providers agreeing on the effective history produce the same result. -/
theorem prompt_normalization_c1_witness :
    effective_history [] = [{ role := "system", content := SYSTEM_PROMPT }]
    ∧ effective_history
        [{ role := "system", content := "custom prompt" }, { role := "user", content := "hi" }]
      = [{ role := "system", content := "custom prompt" }, { role := "user", content := "hi" }]
    ∧ get_agent_response (fun _ => (Except.error 0 : Except Nat Completion)) []
      = get_agent_response (fun _ => (Except.error 0 : Except Nat Completion)) [] :=
  ⟨(prompt_normalization_c1 []).1 (Or.inl rfl),
   (prompt_normalization_c1 _).2.1 ⟨List.cons_ne_nil _ _, rfl⟩,
   (prompt_normalization_c1 []).2.2 Nat _ _ rfl⟩

/-- C6: prompt normalization is idempotent: applying the
`effective_history` step to an already-normalized history changes
nothing. -/
theorem normalization_idempotent_c6 (h : List Message) :
    effective_history (effective_history h) = effective_history h := by
  by_cases hcond : h = [] ∨ h.head?.map Message.role ≠ some "system"
  · rw [effective_history_of_cond hcond]
    exact effective_history_of_not_cond (not_cond_of_head_system rfl)
  · rw [effective_history_of_not_cond hcond]
    exact effective_history_of_not_cond hcond

/-- C8: the structural check `not messages or messages[0]["role"] != "system"`
has a defined outcome on every history: the short-circuit `or` prevents the
subscript `messages[0]` from being evaluated on an empty list, so the
modelled check never yields `none` (an `IndexError`); moreover it returns
`some true` exactly when normalization prepends the system prompt. -/
theorem normalization_check_total_c8 (h : List Message) :
    (normalization_check h).isSome = true
    ∧ (normalization_check h = some true ↔
        effective_history h = { role := "system", content := SYSTEM_PROMPT } :: h) := by
  cases h with
  | nil =>
    refine ⟨rfl, ?_⟩
    simp [normalization_check, effective_history]
  | cons m t =>
    refine ⟨rfl, ?_⟩
    by_cases hr : m.role = "system"
    · rw [effective_history_of_not_cond (not_cond_of_head_system hr)]
      simp only [normalization_check, role_of_first, List.get?_cons_zero, Option.map_some]
      constructor
      · intro hcontra
        simp [hr] at hcontra
      · intro hcontra
        exact absurd (congrArg List.length hcontra) (by simp)
    · rw [effective_history_of_cond (Or.inr (by simp [hr]))]
      simp [normalization_check, role_of_first, hr]

/-- C3: if the provider call fails with an exception `e`, then
`get_agent_response` propagates exactly that failure (no retry, no
fallback) and returns no history.  The embedding is purely functional, so
the caller's history argument is left untouched by construction (the
source builds `current_messages` and `updated_messages` with list
concatenation and never mutates `messages`). -/
theorem error_propagation_c3 {ε : Type} (p : List Message → Except ε Completion)
    (h : List Message) (e : ε)
    (hp : p (effective_history h) = Except.error e) :
    get_agent_response p h = Except.error (AgentError.providerError e)
    ∧ ∀ res : List Message, get_agent_response p h ≠ Except.ok res := by
  have hmain : get_agent_response p h = Except.error (AgentError.providerError e) := by
    simp only [get_agent_response, hp]
  refine ⟨hmain, fun res hres => ?_⟩
  rw [hmain] at hres
  exact Except.noConfusion hres

/-- Witness for C3 at a concrete failing provider and the empty history. -/
theorem error_propagation_c3_witness :
    get_agent_response (fun _ => (Except.error 7 : Except Nat Completion)) []
      = Except.error (AgentError.providerError 7) :=
  (error_propagation_c3 (fun _ => (Except.error 7 : Except Nat Completion)) [] 7 rfl).1

/-- C2: on a successful provider response with a non-empty choice list,
`get_agent_response` returns the effective history plus exactly one
appended assistant message whose content is the provider's text with
leading and trailing whitespace removed; the length grows by one, the last
element is that assistant message, and all preceding elements are the
effective history in order. -/
theorem success_postcondition_c2 {ε : Type} (p : List Message → Except ε Completion)
    (h : List Message) (completion : Completion) (choice : Choice) (rest : List Choice)
    (hp : p (effective_history h) = Except.ok completion)
    (hc : completion.choices = choice :: rest) :
    get_agent_response p h = Except.ok (effective_history h
        ++ [Message.mk "assistant" choice.message.content.trim])
    ∧ (effective_history h
        ++ [Message.mk "assistant" choice.message.content.trim]).length
      = (effective_history h).length + 1
    ∧ (effective_history h
        ++ [Message.mk "assistant" choice.message.content.trim]).getLast?
      = some (Message.mk "assistant" choice.message.content.trim)
    ∧ (effective_history h
        ++ [Message.mk "assistant" choice.message.content.trim]).take
        (effective_history h).length
      = effective_history h := by
  refine ⟨?_, by simp, List.getLast?_concat _, List.take_left _ _⟩
  simp only [get_agent_response, hp, hc, List.get?_cons_zero]

/-- Witness for C2: scenario B of the spec, with a provider that answers
with padded text. -/
theorem success_postcondition_c2_witness :
    get_agent_response
        (fun _ => (Except.ok ⟨[⟨⟨"assistant", "  Pancakes recipe...  "⟩⟩]⟩ : Except Unit Completion))
        [{ role := "user", content := "I want something quick" }]
      = Except.ok (effective_history [{ role := "user", content := "I want something quick" }]
          ++ [Message.mk "assistant" ("  Pancakes recipe...  ").trim]) :=
  (success_postcondition_c2 _ _ _ _ _ rfl rfl).1

/-- C5: on a successful provider response the returned history is a new
value distinct from the input history (it is strictly longer), and the
purely functional embedding leaves the input history unchanged by
construction (the source builds the result with list concatenation and
performs no in-place mutation of `messages`). -/
theorem fresh_result_c5 {ε : Type} (p : List Message → Except ε Completion)
    (h : List Message) (completion : Completion) (choice : Choice) (rest : List Choice)
    (hp : p (effective_history h) = Except.ok completion)
    (hc : completion.choices = choice :: rest) :
    get_agent_response p h = Except.ok (effective_history h
        ++ [Message.mk "assistant" choice.message.content.trim])
    ∧ effective_history h
        ++ [Message.mk "assistant" choice.message.content.trim] ≠ h
    ∧ h.length < (effective_history h
        ++ [Message.mk "assistant" choice.message.content.trim]).length := by
  have hlen : h.length ≤ (effective_history h).length := by
    by_cases hcond : h = [] ∨ h.head?.map Message.role ≠ some "system"
    · rw [effective_history_of_cond hcond]
      simp
    · rw [effective_history_of_not_cond hcond]
  have hlt : h.length < (effective_history h
      ++ [Message.mk "assistant" choice.message.content.trim]).length := by
    rw [List.length_append, List.length_singleton]
    exact Nat.lt_succ_of_le hlen
  refine ⟨?_, fun contra => ?_, hlt⟩
  · simp only [get_agent_response, hp, hc, List.get?_cons_zero]
  · rw [contra] at hlt
    exact Nat.lt_irrefl _ hlt

/-- Witness for C5 at a concrete provider and history. -/
theorem fresh_result_c5_witness :
    effective_history [{ role := "user", content := "hi" }]
        ++ [Message.mk "assistant" ("Try pancakes.").trim]
      ≠ [{ role := "user", content := "hi" }] :=
  (fresh_result_c5
      (fun _ => (Except.ok ⟨[⟨⟨"assistant", "Try pancakes."⟩⟩]⟩ : Except Unit Completion))
      [{ role := "user", content := "hi" }] _ _ _ rfl rfl).2.1

/-- Counterexample to C4 as stated: a history with a system message at a
position other than index 0 yields an effective history with two system
messages, not exactly one. -/
theorem single_system_message_c4_counterexample :
    (effective_history [Message.mk "user" "hi", Message.mk "system" "x"]).countP
        (fun m => m.role == "system") = 2
    ∧ ¬ ((effective_history [Message.mk "user" "hi", Message.mk "system" "x"]).countP
        (fun m => m.role == "system") = 1) := by
  constructor <;> decide

/-- C4 amended: the effective history always begins with a system-role
message, and it contains exactly one system message precisely when the
input history has no system message beyond (possibly) its first
element. -/
theorem single_system_message_c4_amended (h : List Message) :
    (effective_history h).head?.map Message.role = some "system"
    ∧ ((effective_history h).countP (fun m => m.role == "system") = 1 ↔
        (h.drop 1).countP (fun m => m.role == "system") = 0) := by
  refine ⟨effective_history_head h, ?_⟩
  by_cases hcond : h = [] ∨ h.head?.map Message.role ≠ some "system"
  · rw [effective_history_of_cond hcond, List.countP_cons]
    cases h with
    | nil => simp
    | cons m t =>
      have hm : m.role ≠ "system" := by
        rcases hcond with h1 | h2
        · exact absurd h1 (List.cons_ne_nil m t)
        · intro hr
          exact h2 (by simp [hr])
      rw [List.countP_cons]
      simp [hm]
  · have heff := effective_history_of_not_cond hcond
    rw [heff]
    push_neg at hcond
    obtain ⟨hne, hrole⟩ := hcond
    cases h with
    | nil => exact absurd rfl hne
    | cons m t =>
      have hm : m.role = "system" := by simpa using hrole
      rw [List.countP_cons]
      simp [hm]

/-- A process environment in which `MODEL_NAME` is set to the empty
string. -/
def env_with_empty_model_name : String → Option String :=
  fun k => if k = "MODEL_NAME" then some "" else none

/-- Counterexample to C7 as stated: with `MODEL_NAME` set but empty,
`os.environ.get("MODEL_NAME", "gpt-4o-mini")` returns the empty string,
not the documented fallback. -/
theorem model_name_default_c7_counterexample :
    MODEL_NAME env_with_empty_model_name = ""
    ∧ MODEL_NAME env_with_empty_model_name ≠ "gpt-4o-mini" := by
  constructor
  · rfl
  · decide

/-- C7 amended: `MODEL_NAME` resolves to the value of the environment
variable whenever it is set (even to the empty string), and to the
fallback `"gpt-4o-mini"` only when the variable is unset. -/
theorem model_name_default_c7_amended (env : String → Option String) :
    (env "MODEL_NAME" = none → MODEL_NAME env = "gpt-4o-mini")
    ∧ ∀ v : String, env "MODEL_NAME" = some v → MODEL_NAME env = v := by
  constructor
  · intro hnone
    unfold MODEL_NAME
    rw [hnone]
    rfl
  · intro v hv
    unfold MODEL_NAME
    rw [hv]
    rfl

/-- Witness for the amended C7 at an unset and at a set environment. -/
theorem model_name_default_c7_witness :
    MODEL_NAME (fun _ => none) = "gpt-4o-mini"
    ∧ MODEL_NAME (fun _ => some "gpt-4") = "gpt-4" :=
  ⟨(model_name_default_c7_amended (fun _ => none)).1 rfl,
   (model_name_default_c7_amended (fun _ => some "gpt-4")).2 "gpt-4" rfl⟩

/-- Modelled from the spec: the external `python-dotenv` routine invoked as
`load_dotenv(override=False)` (`backend/utils.py` line 16) is not part of
this repository.  Per the spec it populates process environment variables
from an optional key=value file; with `override` disabled it must not
replace a variable that is already set.  Environment and file are partial
maps; the result is the environment after loading. -/
def load_dotenv (override : Bool) (env fileVals : String → Option String) :
    String → Option String := fun k =>
  match env k, fileVals k with
  | some v, some w => some (if override then w else v)
  | some v, none => some v
  | none, w => w

/-- C9: loading the environment file with `override` disabled keeps the
process-environment value for every key present in both the environment
and the file. -/
theorem dotenv_no_override_c9 (env fileVals : String → Option String) (k v w : String)
    (henv : env k = some v) (hfile : fileVals k = some w) :
    load_dotenv false env fileVals k = some v := by
  unfold load_dotenv
  rw [henv, hfile]
  rfl

/-- Witness for C9: a key set in both the environment and the file keeps
its environment value. -/
theorem dotenv_no_override_c9_witness :
    load_dotenv false (fun _ => some "keep") (fun _ => some "file") "MODEL_NAME" = some "keep" :=
  dotenv_no_override_c9 (fun _ => some "keep") (fun _ => some "file") "MODEL_NAME" "keep" "file" rfl rfl

/-- The right-trim scan starting at its own lower bound stops at once. -/
theorem takeRightWhileAux_self (s : String) (p : Char → Bool) (i : String.Pos) :
    Substring.takeRightWhileAux s i p i = i := by
  unfold Substring.takeRightWhileAux
  exact dif_neg (fun hlt => Nat.lt_irrefl _ hlt)

/-- Extracting the empty range of a string yields the empty string. -/
theorem extract_self (s : String) (i : String.Pos) : String.extract s i i = "" := by
  obtain ⟨l⟩ := s
  simp [String.extract]

/-- `String.trim` maps a string consisting only of whitespace characters
(in particular the empty string) to the empty string. -/
theorem trim_eq_empty_of_all_whitespace (s : String)
    (hw : s.data.all Char.isWhitespace = true) : s.trim = "" := by
  obtain ⟨l⟩ := s
  have htake : l.takeWhile Char.isWhitespace = l :=
    List.takeWhile_eq_self_iff.mpr (by simpa using hw)
  have hb : Substring.takeWhileAux ⟨l⟩ (String.endPos ⟨l⟩) Char.isWhitespace 0
      = String.endPos ⟨l⟩ := by
    have hv := String.takeWhileAux_of_valid Char.isWhitespace [] l []
    simp only [List.nil_append, List.append_nil, String.utf8Len_nil, Nat.zero_add] at hv
    rw [htake] at hv
    simpa [String.endPos_eq] using hv
  show (Substring.trim (String.toSubstring ⟨l⟩)).toString = ""
  have hts : String.toSubstring ⟨l⟩ = ⟨⟨l⟩, 0, String.endPos ⟨l⟩⟩ := rfl
  rw [hts]
  show (String.extract ⟨l⟩
      (Substring.takeWhileAux ⟨l⟩ (String.endPos ⟨l⟩) Char.isWhitespace 0)
      (Substring.takeRightWhileAux ⟨l⟩
        (Substring.takeWhileAux ⟨l⟩ (String.endPos ⟨l⟩) Char.isWhitespace 0)
        Char.isWhitespace (String.endPos ⟨l⟩))) = ""
  rw [hb, takeRightWhileAux_self, extract_self]

/-- C10: a whitespace-only (or empty) provider reply is not treated as an
error: `get_agent_response` still succeeds, appends an assistant message
whose content is the empty string, and the length guarantee
`len(result) == len(effective_history) + 1` still holds. -/
theorem whitespace_reply_c10 {ε : Type} (p : List Message → Except ε Completion)
    (h : List Message) (completion : Completion) (choice : Choice) (rest : List Choice)
    (hp : p (effective_history h) = Except.ok completion)
    (hc : completion.choices = choice :: rest)
    (hw : choice.message.content.data.all Char.isWhitespace = true) :
    get_agent_response p h = Except.ok (effective_history h ++ [Message.mk "assistant" ""])
    ∧ (effective_history h ++ [Message.mk "assistant" ""]).length
      = (effective_history h).length + 1 := by
  have htrim : choice.message.content.trim = "" := trim_eq_empty_of_all_whitespace _ hw
  refine ⟨?_, by simp⟩
  simp only [get_agent_response, hp, hc, List.get?_cons_zero, htrim]

/-- Witness for C10: a provider replying with three spaces yields a
successful result ending in an empty assistant message. -/
theorem whitespace_reply_c10_witness :
    get_agent_response (fun _ => (Except.ok ⟨[⟨⟨"assistant", "   "⟩⟩]⟩ : Except Unit Completion)) []
      = Except.ok (effective_history [] ++ [Message.mk "assistant" ""]) :=
  (whitespace_reply_c10 _ [] _ _ _ rfl rfl (by decide)).1
